import Mathlib

/-!
# Batch OCR orchestration pipeline — shallow embedding

This file embeds, in Lean, the batch OCR orchestration pipeline of the
repository: the chunking loop and retry loop of `pdfToText` and
`runBatches` (`src/lib/gemini_ocr.js`), the marker-based resume parser
`extractPagesFromMarkdown`, and the job client
`GeminiBatchProcessor.runInlineBatch` / `waitForCompletion`
(`src/lib/gemini_batch.js`).

Modelling conventions:

* Unit output text is modelled as a `List Piece`, where a `Piece` is either
  an occurrence of the page-begin marker `### -- Begin Page <n>` (with its
  parsed integer), an occurrence of the end marker `### -- End`, the literal
  failure sentinel `[ERROR: OCR Failed for page n]`, a broken begin marker
  (text of the shape `### -- Begin Page undefined`, produced when the
  renumbering step indexes past the metadata page list — it no longer
  matches the begin-marker regex `### -- Begin Page (\d+)`), or opaque raw
  text (identified by a `Nat` tag) that contains none of the marker or
  sentinel substrings.  The JavaScript regex scans over strings become list
  scans over pieces.
* A request's serialized form is abstracted to its `JSON.stringify` length
  (a `Nat`); `jsonArrayLength` is the length of `JSON.stringify` of an
  array of requests given their individual lengths (2 brackets plus one
  comma between neighbours).
* The remote batch service is an oracle `Svc : Nat → List Nat → JobBehavior`
  giving, for the n-th created job and the submitted chunk (request sizes),
  the sequence of states returned by successive polls and the
  `dest.inlinedResponses` payload.
* A thrown JavaScript exception is modelled as `Except.error`; the file
  systematically threads errors the way the source propagates exceptions
  (no `try`/`catch` exists anywhere on the orchestration path).
* The on-disk artifact pair (`X_paged.md` / `X_ERROR_paged.md`) is modelled
  by `FsState`, two existence flags, with `persist` mirroring the
  write-then-unlink sequence at the end of `pdfToText`.
-/

namespace GeminiOcr

/-- Poll states of a batch job (`JOB_STATE_*` in `gemini_batch.js`).
`pending`/`running` stand for the non-terminal states. -/
inductive JState where
  | pending
  | running
  | succeeded
  | failed
  | cancelled
  | expired
deriving DecidableEq, Repr

/-- The terminal-state set built in `waitForCompletion`
(`JOB_STATE_SUCCEEDED/FAILED/CANCELLED/EXPIRED`). -/
def isTerminal : JState → Bool
  | .succeeded => true
  | .failed => true
  | .cancelled => true
  | .expired => true
  | _ => false

/-- A terminal state other than `SUCCEEDED` (the `else` branch of
`waitForCompletion`'s final dispatch). -/
def isJobFail : JState → Bool
  | .failed => true
  | .cancelled => true
  | .expired => true
  | _ => false

/-- One lexical piece of a unit's markdown text; see the module docstring. -/
inductive Piece where
  | beginPage (n : Nat)
  | endMarker
  | errorSentinel (n : Nat)
  | brokenMarker
  | raw (id : Nat)
deriving DecidableEq, Repr

/-- Does this piece match the begin-marker regex `### -- Begin Page (\d+)`? -/
def Piece.isBegin : Piece → Bool
  | .beginPage _ => true
  | _ => false

/-- Does this piece contain the substring `[ERROR: OCR Failed`? -/
def Piece.isErrSentinel : Piece → Bool
  | .errorSentinel _ => true
  | _ => false

/-- One inlined response of a batch job: `{ response?, error? }`.  `error`
is the error object (abstracted to a code), `response` is
`response.candidates[0].content.parts` joined into one text (or `none` when
the optional chain `result.response?.candidates?.[0]?.content?.parts` is
undefined). -/
structure Outcome where
  error : Option Nat
  response : Option (List Piece)
deriving DecidableEq, Repr

/-- Behaviour of one created job: the successive states returned by
`batches.get` and, for a succeeded job, `dest.inlinedResponses` (`none`
models a missing `dest`/`inlinedResponses`). -/
structure JobBehavior where
  polls : List JState
  dest : Option (List Outcome)

/-- The remote service as an oracle: job creation index and submitted chunk
(request sizes) determine the job's behaviour. -/
abbrev Svc := Nat → List Nat → JobBehavior

/-- `batchMetadata` entry: `{ startPage: batch[0], numPages: batch.length,
pages: batch }`. -/
structure Meta where
  startPage : Nat
  numPages : Nat
  pages : List Nat
deriving DecidableEq, Repr

/-- A JavaScript `Map` from page number to page text, as an association
list in insertion order with unique keys. -/
abbrev PageMap := List (Nat × List Piece)

/-- `Map.prototype.set`: replace in place if the key exists, else append. -/
def mapSet : PageMap → Nat → List Piece → PageMap
  | [], k, v => [(k, v)]
  | (k', v') :: rest, k, v =>
    if k' = k then (k', v) :: rest else (k', v') :: mapSet rest k v

/-- `Map.prototype.has`. -/
def mapHas (m : PageMap) (k : Nat) : Bool :=
  m.any (fun p => p.1 = k)

/-- `Map.prototype.get` (as an `Option`). -/
def mapGet? : PageMap → Nat → Option (List Piece)
  | [], _ => none
  | (k', v') :: rest, k => if k' = k then some v' else mapGet? rest k

/-- `Map.prototype.get` with a default. -/
def mapGetD (m : PageMap) (k : Nat) (d : List Piece) : List Piece :=
  (mapGet? m k).getD d

/-- The position-splitting pass of `extractPagesFromMarkdown`: scan for
begin markers, and cut the content into one segment per begin marker, each
segment running from its marker to just before the next one (text before
the first marker is dropped).  `cur` carries the page number and the
pieces (reversed) of the segment currently being accumulated. -/
def splitAtBeginsAux : List Piece → Option (Nat × List Piece) → List (Nat × List Piece)
  | [], none => []
  | [], some (n, acc) => [(n, acc.reverse)]
  | p :: rest, cur =>
    match p with
    | .beginPage k =>
      match cur with
      | none => splitAtBeginsAux rest (some (k, [Piece.beginPage k]))
      | some (n, acc) => (n, acc.reverse) :: splitAtBeginsAux rest (some (k, [Piece.beginPage k]))
    | q =>
      match cur with
      | none => splitAtBeginsAux rest none
      | some (n, acc) => splitAtBeginsAux rest (some (n, q :: acc))

/-- All `(pageNum, segment)` pairs of a markdown text, in order. -/
def splitAtBegins (content : List Piece) : List (Nat × List Piece) :=
  splitAtBeginsAux content none

/-- `extractPagesFromMarkdown`: split at begin markers, then `Map.set` each
segment under its page number unless the segment contains the substring
`[ERROR: OCR Failed`. -/
def extractPagesFromMarkdown (content : List Piece) : PageMap :=
  (splitAtBegins content).foldl
    (fun m seg => if seg.2.any Piece.isErrSentinel then m else mapSet m seg.1 seg.2) []

/-- `MAX_BATCH_SIZE = 19 * 1024 * 1024` (19 MiB), used both by the chunking
loop of `runBatches` and by the pre-submission size check of
`runInlineBatch`. -/
def MAX_BATCH_SIZE : Nat := 19 * 1024 * 1024

/-- Length of `JSON.stringify` of an array of requests, given each
request's own `JSON.stringify` length: the two brackets plus the elements
plus one comma between neighbours. -/
def jsonArrayLength (sizes : List Nat) : Nat :=
  2 + sizes.sum + (sizes.length - 1)

/-- The chunking loop of `runBatches`: walk the request sizes keeping the
current batch `cur` and its running size `curSize`; when adding the next
request would push `curSize` over `maxSize`, flush the current batch first
(`processBatch` returns immediately on an empty batch); the request is then
pushed unconditionally.  A final flush emits the last batch. -/
def chunkReqs (maxSize : Nat) : List Nat → List Nat → Nat → List (List Nat)
  | [], cur, _ => if cur.isEmpty then [] else [cur]
  | r :: rest, cur, curSize =>
    if maxSize < curSize + r then
      if cur.isEmpty then chunkReqs maxSize rest [r] r
      else cur :: chunkReqs maxSize rest [r] r
    else chunkReqs maxSize rest (cur ++ [r]) (curSize + r)

/-- Errors thrown on the orchestration path (each is a `throw new Error`
in the source). -/
inductive RunErr where
  /-- `runInlineBatch`: the serialized request payload exceeds the 19 MiB
  safety limit (checked before the job is created). -/
  | sizeLimit
  /-- `waitForCompletion`: the job reached a terminal state other than
  `JOB_STATE_SUCCEEDED`. -/
  | jobFailed (s : JState)
  /-- `waitForCompletion`: the job succeeded but carried no
  `dest.inlinedResponses`. -/
  | noInlineResponses
  /-- Model artifact: the finite poll trace contained no terminal state
  (the JavaScript loop would keep polling forever). -/
  | pollExhausted
deriving DecidableEq, Repr

/-- `waitForCompletion`: poll (skip non-terminal states), then dispatch on
the terminal state — inlined responses on `SUCCEEDED` (error if they are
missing), a thrown job-failure error otherwise. -/
def waitForCompletion : List JState → Option (List Outcome) → Except RunErr (List Outcome)
  | [], _ => .error .pollExhausted
  | s :: rest, dest =>
    if isTerminal s then
      if s = .succeeded then
        match dest with
        | some rs => .ok rs
        | none => .error .noInlineResponses
      else .error (.jobFailed s)
    else waitForCompletion rest dest

/-- `runInlineBatch`: check `JSON.stringify(requests).length` against the
19 MiB ceiling before any network call (on violation, throw with no job
created — the job counter is left untouched); otherwise create the job
(consume the oracle at the current job index) and await its completion.
Returns the result together with the next job-creation index. -/
def runInlineBatch (chunk : List Nat) (svc : Svc) (jobIdx : Nat) :
    Except RunErr (List Outcome) × Nat :=
  if MAX_BATCH_SIZE < jsonArrayLength chunk then
    (.error .sizeLimit, jobIdx)
  else
    let jb := svc jobIdx chunk
    (waitForCompletion jb.polls jb.dest, jobIdx + 1)

/-- The submission part of `runBatches`: run each assembled chunk through
`runInlineBatch`, concatenating the inlined responses in order
(`allResults.push(...results)`); a thrown error propagates immediately. -/
def runBatchesGo : List (List Nat) → Svc → Nat → Except RunErr (List Outcome) × Nat
  | [], _, jobIdx => (.ok [], jobIdx)
  | c :: cs, svc, jobIdx =>
    match runInlineBatch c svc jobIdx with
    | (.error e, jobIdx') => (.error e, jobIdx')
    | (.ok outs, jobIdx') =>
      match runBatchesGo cs svc jobIdx' with
      | (.error e, jobIdx'') => (.error e, jobIdx'')
      | (.ok rest, jobIdx'') => (.ok (outs ++ rest), jobIdx'')

/-- `runBatches`: chunk the request sizes under `MAX_BATCH_SIZE`, submit
each chunk as one inline batch job. -/
def runBatches (sizes : List Nat) (svc : Svc) (jobIdx : Nat) :
    Except RunErr (List Outcome) × Nat :=
  runBatchesGo (chunkReqs MAX_BATCH_SIZE sizes [] 0) svc jobIdx

/-- `beginCount`: `(text.match(/### -- Begin Page \d+/g) || []).length`. -/
def beginCount (t : List Piece) : Nat :=
  t.countP Piece.isBegin

/-- `endCount`: `(text.match(/### -- End/g) || []).length`. -/
def endCount (t : List Piece) : Nat :=
  t.countP (fun p => p = Piece.endMarker)

/-- The validation of one unit's outcome in the retry loop of `pdfToText`:
`success` is set exactly when there is no error object, the response text
is present, and both marker counts equal the unit's expected page count. -/
def unitSuccess (meta : Meta) (res : Outcome) : Bool :=
  res.error.isNone &&
    match res.response with
    | none => false
    | some t => beginCount t == meta.numPages && endCount t == meta.numPages

/-- The replacement callback of the relative-to-absolute rewrite
`text.replace(/### -- Begin Page (\d+)/g, ...)`: a begin marker with
relative index `r` becomes a begin marker carrying `meta.pages[r - 1]`;
when that JavaScript index is out of bounds (`r = 0` or
`r > pages.length`) the array access yields `undefined` and the marker is
rewritten to the non-marker text `### -- Begin Page undefined`, modelled
as `Piece.brokenMarker`.  Non-marker pieces are left unchanged. -/
def renumberPiece (pages : List Nat) : Piece → Piece
  | .beginPage r =>
    if r = 0 then .brokenMarker
    else
      match pages[r - 1]? with
      | some a => .beginPage a
      | none => .brokenMarker
  | p => p

/-- The relative-to-absolute rewrite applied to a whole unit text (the
global regex replaces every occurrence). -/
def renumber (pages : List Nat) (t : List Piece) : List Piece :=
  t.map (renumberPiece pages)

/-- The merge of one accepted unit into the run's `pageMap`: renumber its
text, extract its per-page segments, and `Map.set` each of them. -/
def mergeUnit (meta : Meta) (res : Outcome) (m : PageMap) : PageMap :=
  (extractPagesFromMarkdown (renumber meta.pages (res.response.getD []))).foldl
    (fun acc seg => mapSet acc seg.1 seg.2) m

/-- The default `Meta` used for out-of-range metadata lookups (never hit
when the service returns one inlined response per submitted request). -/
def dMeta : Meta := ⟨0, 0, []⟩

/-- The per-result loop of one retry round in `pdfToText`: the `i`-th batch
result is paired with `pendingIndices[i]`, whose metadata is looked up in
`batchMetadata`; an accepted unit is merged into the page map, a failed one
has its original index pushed onto `nextPendingIndices`.  (The source
iterates `i` over `batchResults` and reads `pendingIndices[i]`; pairing the
two lists models this for the aligned lengths the service contract
guarantees — one inlined response per submitted request.) -/
def processResults (metas : List Meta) :
    List (Nat × Outcome) → PageMap → PageMap × List Nat
  | [], m => (m, [])
  | (origIdx, res) :: rest, m =>
    let meta := metas.getD origIdx dMeta
    if unitSuccess meta res then
      processResults metas rest (mergeUnit meta res m)
    else
      let p := processResults metas rest m
      (p.1, origIdx :: p.2)

/-- `MAX_RETRIES = 3`. -/
def MAX_RETRIES : Nat := 3

/-- State of the retry loop when it exits (the values of `pageMap`,
`pendingIndices` and `retryCount` after the `while`, plus the number of
jobs created so far). -/
structure LoopState where
  pageMap : PageMap
  pending : List Nat
  retryCount : Nat
  jobIdx : Nat
deriving DecidableEq, Repr

/-- The retry loop of `pdfToText`:
`while (pendingIndices.length > 0) { if (retryCount >= MAX_RETRIES) break;
...submit pending, process results, retryCount++ }`.  A thrown error from
`runBatches` is not caught anywhere in `pdfToText` and aborts the loop (and
the run).  `fuel` is a structural-recursion bound only: each iteration
increments `retryCount` and the loop breaks at `retryCount ≥ MAX_RETRIES`,
so `fuel = MAX_RETRIES` (as passed by `retryLoop`) never runs out before
the break; the `fuel = 0` branch replays the break for uniformity. -/
def retryLoopGo (sizes : List Nat) (metas : List Meta) (svc : Svc) :
    Nat → List Nat → Nat → PageMap → Nat → Except RunErr LoopState
  | _, [], retryCount, m, jobIdx => .ok ⟨m, [], retryCount, jobIdx⟩
  | 0, p :: pending', retryCount, m, jobIdx => .ok ⟨m, p :: pending', retryCount, jobIdx⟩
  | fuel + 1, p :: pending', retryCount, m, jobIdx =>
    if MAX_RETRIES ≤ retryCount then .ok ⟨m, p :: pending', retryCount, jobIdx⟩
    else
      let pending := p :: pending'
      let curSizes := pending.map (fun i => sizes.getD i 0)
      match runBatches curSizes svc jobIdx with
      | (.error e, _) => .error e
      | (.ok results, jobIdx') =>
        let step := processResults metas (pending.zip results) m
        retryLoopGo sizes metas svc fuel step.2 (retryCount + 1) step.1 jobIdx'

/-- The retry loop, entered with `retryCount = 0`. -/
def retryLoop (sizes : List Nat) (metas : List Meta) (svc : Svc)
    (pending : List Nat) (m : PageMap) (jobIdx : Nat) : Except RunErr LoopState :=
  retryLoopGo sizes metas svc MAX_RETRIES pending 0 m jobIdx

/-- The inputs of one `pdfToText` run: the page geometry and arguments,
the prior on-disk artifacts (`errorArtifact` is the parsed content of
`X_ERROR_paged.md` when that file exists), the serialized size of the OCR
request built for a given page batch (opaque: it depends on the PDF bytes),
and the service oracle. -/
structure RunInput where
  totalPages : Nat
  startPage : Nat
  endPage : Option Nat
  batchSize : Nat
  errorArtifact : Option (List Piece)
  normalExists : Bool
  reqSize : List Nat → Nat
  svc : Svc

/-- `actualEndPage = endPage || totalPages`. -/
def actualEndPage (inp : RunInput) : Nat :=
  inp.endPage.getD inp.totalPages

/-- The requested page range `startPage..actualEndPage` (inclusive, empty
when `startPage > actualEndPage`), ascending — both the resume filter and
the final merge iterate it. -/
def pageRange (inp : RunInput) : List Nat :=
  List.range' inp.startPage (actualEndPage inp + 1 - inp.startPage)

/-- The resume scan: when a prior `X_ERROR_paged.md` exists its parsed
pages seed `pageMap`, else the map starts empty. -/
def resumeMap (inp : RunInput) : PageMap :=
  match inp.errorArtifact with
  | none => []
  | some c => extractPagesFromMarkdown c

/-- `pageIndices`: the requested pages not already present in the resumed
page map. -/
def pageIndices (inp : RunInput) : List Nat :=
  (pageRange inp).filter (fun i => !mapHas (resumeMap inp) i)

/-- The page-batching loop `for (i = 0; i < pageIndices.length; i += batchSize)
slice(i, i + batchSize)`, written as one pass: `k` is the free capacity
left in the current batch and `acc` its pages in reverse. -/
def chunkPagesAux (bs : Nat) : List Nat → Nat → List Nat → List (List Nat)
  | [], _, acc => if acc.isEmpty then [] else [acc.reverse]
  | p :: rest, 0, acc => acc.reverse :: chunkPagesAux bs rest (bs - 1) [p]
  | p :: rest, k + 1, acc => chunkPagesAux bs rest k (p :: acc)

/-- Group the pending page indices into runs of at most `bs` consecutive
entries.  (`bs = 0` would loop forever in the source; it is modelled as
producing no batches and is never used by the callers, whose default is
5.) -/
def chunkPages (bs : Nat) (ps : List Nat) : List (List Nat) :=
  match bs with
  | 0 => []
  | bs + 1 => chunkPagesAux (bs + 1) ps (bs + 1) []

/-- The page batches of a run, in order. -/
def unitChunks (inp : RunInput) : List (List Nat) :=
  chunkPages inp.batchSize (pageIndices inp)

/-- `batchMetadata`, one entry per page batch. -/
def unitMetas (inp : RunInput) : List Meta :=
  (unitChunks inp).map (fun b => ⟨b.headD 0, b.length, b⟩)

/-- The serialized request size of every unit, in order. -/
def unitSizes (inp : RunInput) : List Nat :=
  (unitChunks inp).map inp.reqSize

/-- Which of the two artifact files exist on disk. -/
structure FsState where
  errorExists : Bool
  normalExists : Bool
deriving DecidableEq, Repr

/-- The final block of one page in the merge: its resolved text when the
page map has it, else the begin marker followed by the literal sentinel
`[ERROR: OCR Failed for page i]`. -/
def renderPage (m : PageMap) (i : Nat) : List Piece :=
  if mapHas m i then mapGetD m i []
  else [Piece.beginPage i, Piece.errorSentinel i]

/-- The assembly loop of `pdfToText` step 3: iterate the requested range
ascending, appending each page's resolved text or its error block, and
latch `hasError` on the first unresolved page. -/
def assemble (ps : List Nat) (m : PageMap) : List Piece × Bool :=
  ps.foldl
    (fun acc i =>
      if mapHas m i then (acc.1 ++ mapGetD m i [], acc.2)
      else (acc.1 ++ [Piece.beginPage i, Piece.errorSentinel i], true))
    ([], false)

/-- The persistence step: on `hasError`, write the error artifact then
unlink the success artifact if present; otherwise write the success
artifact then unlink the error artifact if present. -/
def persist (fs0 : FsState) (hasError : Bool) : FsState :=
  if hasError then
    let fs1 : FsState := ⟨true, fs0.normalExists⟩
    ⟨fs1.errorExists, if fs1.normalExists then false else fs1.normalExists⟩
  else
    let fs1 : FsState := ⟨fs0.errorExists, true⟩
    ⟨if fs1.errorExists then false else fs1.errorExists, fs1.normalExists⟩

/-- The artifact files on disk when the run starts. -/
def initialFs (inp : RunInput) : FsState :=
  ⟨inp.errorArtifact.isSome, inp.normalExists⟩

/-- What a completed run produces: the final page map, the retry-loop exit
state, the merged artifact content, the error flag deciding which path is
written, and the files left on disk. -/
structure RunResult where
  finalMap : PageMap
  pending : List Nat
  retryCount : Nat
  artifact : List Piece
  hasError : Bool
  fs : FsState
deriving DecidableEq, Repr

/-- The retry loop exactly as `pdfToText` enters it: all units pending,
`retryCount = 0`, the page map seeded by the resume scan. -/
def retryLoopFull (inp : RunInput) : Except RunErr LoopState :=
  retryLoop (unitSizes inp) (unitMetas inp) inp.svc
    (List.range (unitChunks inp).length) (resumeMap inp) 0

/-- Steps 3 (assemble) and the persistence of `pdfToText`, from the
retry-loop exit state. -/
def finishRun (inp : RunInput) (st : LoopState) : RunResult :=
  let a := assemble (pageRange inp) st.pageMap
  { finalMap := st.pageMap
    pending := st.pending
    retryCount := st.retryCount
    artifact := a.1
    hasError := a.2
    fs := persist (initialFs inp) a.2 }

/-- `pdfToText`: resume scan, chunking, retry loop, merge, persist.  An
error thrown inside the retry loop (job-level failure, missing inline
responses, or the pre-submission size check) is never caught and aborts
the run before anything is merged or written. -/
def pdfToText (inp : RunInput) : Except RunErr RunResult :=
  match retryLoopFull inp with
  | .error e => .error e
  | .ok st => .ok (finishRun inp st)

/-- The relative page indices carried by the begin markers of a unit
text, in order of occurrence. -/
def beginIndices (t : List Piece) : List Nat :=
  t.filterMap (fun p => match p with | .beginPage n => some n | _ => none)

/-- The first batch assembled by the chunking loop for a run's request
sizes (the first job `pdfToText` submits). -/
def firstChunk (inp : RunInput) : List Nat :=
  (chunkReqs MAX_BATCH_SIZE (unitSizes inp) [] 0).headD []

/-! ### Concrete run inputs used by the witnesses and counterexamples -/

/-- A service whose first created job ends in `JOB_STATE_FAILED` and whose
later jobs would succeed with valid single-page output — so a run that
resubmitted after the job failure would succeed. -/
def w1svc : Svc := fun j c =>
  if j = 0 then ⟨[JState.running, JState.failed], none⟩
  else ⟨[JState.succeeded],
    some (c.map fun _ => ⟨none, some [Piece.beginPage 1, Piece.raw 0, Piece.endMarker]⟩)⟩

/-- A one-page run against `w1svc`. -/
def w1inp : RunInput := ⟨1, 1, none, 1, none, false, fun _ => 1, w1svc⟩

/-- A one-page run whose only job is cancelled. -/
def w1binp : RunInput :=
  ⟨1, 1, none, 1, none, false, fun _ => 1, fun _ _ => ⟨[JState.cancelled], none⟩⟩

/-- A service whose jobs always succeed at the job level but return an
error object for every request, so every unit fails validation in every
round. -/
def failSvc : Svc := fun _ c =>
  ⟨[JState.succeeded], some (List.replicate c.length ⟨some 7, none⟩)⟩

/-- A one-page run against `failSvc`. -/
def w2inp : RunInput := ⟨1, 1, none, 1, none, false, fun _ => 1, failSvc⟩

/-- What the run on `w2inp` produces: nothing resolved, the single unit
still pending after three rounds, the page rendered as an error block, the
error artifact written. -/
def c2res : RunResult :=
  ⟨[], [0], 3, [Piece.beginPage 1, Piece.errorSentinel 1], true, ⟨true, false⟩⟩

/-- A service whose jobs succeed and return, for every request, a valid
single-page text. -/
def okSvc : Svc := fun _ c =>
  ⟨[JState.succeeded],
   some (c.map fun _ => ⟨none, some [Piece.beginPage 1, Piece.raw 3, Piece.endMarker]⟩)⟩

/-- A one-page run against `okSvc`, with a stale success artifact on
disk. -/
def w7inp : RunInput := ⟨1, 1, none, 1, none, true, fun _ => 1, okSvc⟩

/-- What the run on `w7inp` produces: the page resolved in round 0, the
success artifact written. -/
def c7res : RunResult :=
  ⟨[(1, [Piece.beginPage 1, Piece.raw 3, Piece.endMarker])], [], 1,
   [Piece.beginPage 1, Piece.raw 3, Piece.endMarker], false, ⟨false, true⟩⟩

/-- A partial-failure artifact: page 1 resolved, page 2 recorded as an
inline OCR failure. -/
def artSample : List Piece :=
  [Piece.beginPage 1, Piece.raw 10, Piece.endMarker,
   Piece.beginPage 2, Piece.errorSentinel 2]

/-- A two-page rerun that resumes from `artSample`. -/
def w6inp : RunInput := ⟨2, 1, none, 5, some artSample, false, fun _ => 1, okSvc⟩

/-! ## Helper lemmas -/

theorem chunkReqs_sum_le (M : Nat) :
    ∀ (sizes cur : List Nat) (curSize : Nat),
      (∀ s ∈ sizes, s ≤ M) → cur.sum ≤ M → curSize = cur.sum →
      ∀ c ∈ chunkReqs M sizes cur curSize, c.sum ≤ M := by
  intro sizes
  induction sizes with
  | nil =>
    intro cur curSize _ hcur _ c hc
    simp only [chunkReqs] at hc
    by_cases h : cur.isEmpty <;> simp [h] at hc
    exact hc ▸ hcur
  | cons r rest ih =>
    intro cur curSize hall hcur hsz c hc
    have hr : r ≤ M := hall r (by simp)
    have hrest : ∀ s ∈ rest, s ≤ M := fun s hs => hall s (by simp [hs])
    simp only [chunkReqs] at hc
    by_cases hover : M < curSize + r
    · simp only [hover, if_true] at hc
      by_cases hemp : cur.isEmpty
      · simp only [hemp, if_true] at hc
        exact ih [r] r hrest (by simpa using hr) (by simp) c hc
      · simp only [hemp, if_false] at hc
        rcases List.mem_cons.mp hc with h | h
        · exact h ▸ hcur
        · exact ih [r] r hrest (by simpa using hr) (by simp) c h
    · simp only [hover, if_false] at hc
      refine ih (cur ++ [r]) (curSize + r) hrest ?_ ?_ c hc
      · simpa [List.sum_append, hsz] using Nat.le_of_not_lt hover
      · simp [List.sum_append, hsz]

theorem chunkReqs_join (M : Nat) :
    ∀ (sizes cur : List Nat) (curSize : Nat),
      (chunkReqs M sizes cur curSize).flatten = cur ++ sizes := by
  intro sizes
  induction sizes with
  | nil =>
    intro cur curSize
    by_cases h : cur.isEmpty
    · simp [chunkReqs, h, List.isEmpty_iff.mp h]
    · simp [chunkReqs, h]
  | cons r rest ih =>
    intro cur curSize
    simp only [chunkReqs]
    by_cases hover : M < curSize + r
    · by_cases hemp : cur.isEmpty
      · simp [hover, hemp, ih, List.isEmpty_iff.mp hemp]
      · simp [hover, hemp, ih]
    · simp [hover, ih]

theorem chunkPagesAux_join (bs : Nat) :
    ∀ (ps : List Nat) (k : Nat) (acc : List Nat),
      (chunkPagesAux bs ps k acc).flatten = acc.reverse ++ ps := by
  intro ps
  induction ps with
  | nil =>
    intro k acc
    by_cases h : acc.isEmpty
    · simp [chunkPagesAux, h, List.isEmpty_iff.mp h]
    · simp [chunkPagesAux, h]
  | cons p rest ih =>
    intro k acc
    match k with
    | 0 => simp [chunkPagesAux, ih]
    | k + 1 => simp [chunkPagesAux, ih]

theorem chunkPages_join (bs : Nat) (hbs : 0 < bs) (ps : List Nat) :
    (chunkPages bs ps).flatten = ps := by
  match bs, hbs with
  | bs + 1, _ => simpa using chunkPagesAux_join (bs + 1) ps (bs + 1) []

/-! ## C4 — relative-to-absolute renumbering -/

/-- C4: on acceptance of a unit, every begin marker carrying a relative
index `r` within `1..pages.length` is rewritten to the absolute page
number `pages[r - 1]`; all surrounding pieces are renumbered
independently of it. -/
theorem claim_C4 (pages : List Nat) (pre post : List Piece) (r a : Nat)
    (h1 : 1 ≤ r) (h2 : pages[r - 1]? = some a) :
    renumber pages (pre ++ Piece.beginPage r :: post)
      = renumber pages pre ++ Piece.beginPage a :: renumber pages post := by
  have hr : ¬ r = 0 := by omega
  simp [renumber, renumberPiece, hr, h2]

/-- Witness for C4: a unit covering the physical pages `[5, 6, 7]` has its
relative marker `Begin Page 2` rewritten to `Begin Page 6`. -/
theorem claim_C4_witness :
    1 ≤ 2 ∧ [5, 6, 7][2 - 1]? = some 6 ∧
      renumber [5, 6, 7] ([] ++ Piece.beginPage 2 :: [])
        = renumber [5, 6, 7] [] ++ Piece.beginPage 6 :: renumber [5, 6, 7] [] :=
  ⟨by decide, by decide, claim_C4 [5, 6, 7] [] [] 2 6 (by decide) (by decide)⟩

/-! ## C5 — chunk size bound -/

/-- Counterexample to C5 as stated: the claim asserts the bound for *every*
input sequence, but a single request whose serialized size already exceeds
`MAX_BATCH_SIZE` is still assembled into a (singleton) batch and submitted
as one job — the flush happens before the push, the push itself is
unconditional.  Here that batch's serialized size estimate exceeds the
bound. -/
theorem claim_C5_counterexample :
    chunkReqs MAX_BATCH_SIZE [MAX_BATCH_SIZE + 1] [] 0 = [[MAX_BATCH_SIZE + 1]] ∧
      ∃ c ∈ chunkReqs MAX_BATCH_SIZE [MAX_BATCH_SIZE + 1] [] 0,
        MAX_BATCH_SIZE < c.sum := by
  constructor
  · decide
  · exact ⟨[MAX_BATCH_SIZE + 1], by decide, by decide⟩

/-- C5 (amended): for every input sequence in which each individual
request's serialized size is at most `MAX_BATCH_SIZE`, every batch that the
chunking loop of `runBatches` assembles and submits as one job has a
serialized size estimate (the sum of the `JSON.stringify` lengths of its
requests) of at most `MAX_BATCH_SIZE`. -/
theorem claim_C5 (sizes : List Nat) (h : ∀ s ∈ sizes, s ≤ MAX_BATCH_SIZE) :
    ∀ c ∈ chunkReqs MAX_BATCH_SIZE sizes [] 0, c.sum ≤ MAX_BATCH_SIZE :=
  chunkReqs_sum_le MAX_BATCH_SIZE sizes [] 0 h (by simp) (by simp)

/-- Witness for C5 at a concrete input: three requests, one of them at the
limit, are chunked into batches that all respect the bound. -/
theorem claim_C5_witness :
    (∀ s ∈ [10, MAX_BATCH_SIZE, 5], s ≤ MAX_BATCH_SIZE) ∧
      ∀ c ∈ chunkReqs MAX_BATCH_SIZE [10, MAX_BATCH_SIZE, 5] [] 0,
        c.sum ≤ MAX_BATCH_SIZE :=
  ⟨by decide, claim_C5 [10, MAX_BATCH_SIZE, 5] (by decide)⟩

/-! ## C9 — pre-submission size check of `runInlineBatch` -/

/-- C9: `runInlineBatch` computes the total serialized payload size of the
submitted request sequence up front; when it exceeds the 19 MiB ceiling it
throws with the job counter untouched (no job is ever created), and the
thrown error propagates out of the surrounding `runBatches` submission loop
unchanged (no retry of any kind). -/
theorem claim_C9 (chunk : List Nat) (svc : Svc) (jobIdx : Nat)
    (cs : List (List Nat)) (h : MAX_BATCH_SIZE < jsonArrayLength chunk) :
    runInlineBatch chunk svc jobIdx = (.error .sizeLimit, jobIdx) ∧
      runBatchesGo (chunk :: cs) svc jobIdx = (.error .sizeLimit, jobIdx) := by
  constructor
  · simp [runInlineBatch, h]
  · simp [runBatchesGo, runInlineBatch, h]

/-- Witness for C9: a single request one byte over the ceiling is rejected
with no job created. -/
theorem claim_C9_witness :
    MAX_BATCH_SIZE < jsonArrayLength [MAX_BATCH_SIZE + 1] ∧
      runInlineBatch [MAX_BATCH_SIZE + 1] (fun _ _ => ⟨[], none⟩) 0
        = (.error .sizeLimit, 0) :=
  ⟨by decide,
   (claim_C9 [MAX_BATCH_SIZE + 1] (fun _ _ => ⟨[], none⟩) 0 [] (by decide)).1⟩

/-! ## C3 — atomic unit acceptance -/

/-- C3: a unit's pages are written to the page map only when its outcome
carries no error object and its begin- and end-marker counts both equal the
unit's expected page count (this is exactly `unitSuccess`); on any mismatch
or error object the per-result loop leaves the page map untouched for this
unit and pushes the whole unit back onto the pending list. -/
theorem claim_C3 (metas : List Meta) (origIdx : Nat) (res : Outcome)
    (rest : List (Nat × Outcome)) (m : PageMap) :
    (unitSuccess (metas.getD origIdx dMeta) res = true ↔
      res.error = none ∧ ∃ t, res.response = some t ∧
        beginCount t = (metas.getD origIdx dMeta).numPages ∧
        endCount t = (metas.getD origIdx dMeta).numPages) ∧
    (unitSuccess (metas.getD origIdx dMeta) res = false →
      (processResults metas ((origIdx, res) :: rest) m).1
          = (processResults metas rest m).1 ∧
        (processResults metas ((origIdx, res) :: rest) m).2
          = origIdx :: (processResults metas rest m).2) := by
  constructor
  · cases hresp : res.response with
    | none => simp [unitSuccess, hresp, Option.isNone_iff_eq_none]
    | some t =>
      simp only [unitSuccess, hresp, Bool.and_eq_true, beq_iff_eq,
        Option.isNone_iff_eq_none]
      constructor
      · rintro ⟨he, hb, hn⟩
        exact ⟨he, t, rfl, hb, hn⟩
      · rintro ⟨he, t', ht', hb, hn⟩
        cases ht'
        exact ⟨he, hb, hn⟩
  · intro hfail
    simp only [processResults]
    rw [if_neg (by simp only [hfail]; decide)]
    exact ⟨rfl, rfl⟩

/-- Witness for C3: a unit returning three begin markers but two end
markers for an expected count of three is rejected whole — the page map is
unchanged and the unit re-enters pending. -/
theorem claim_C3_witness :
    unitSuccess ([Meta.mk 1 3 [1, 2, 3]].getD 0 dMeta)
        ⟨none, some [Piece.beginPage 1, Piece.endMarker, Piece.beginPage 2,
          Piece.endMarker, Piece.beginPage 3]⟩ = false ∧
      (processResults [Meta.mk 1 3 [1, 2, 3]]
          [(0, ⟨none, some [Piece.beginPage 1, Piece.endMarker, Piece.beginPage 2,
            Piece.endMarker, Piece.beginPage 3]⟩)] []).1
        = (processResults [Meta.mk 1 3 [1, 2, 3]] [] []).1 ∧
      (processResults [Meta.mk 1 3 [1, 2, 3]]
          [(0, ⟨none, some [Piece.beginPage 1, Piece.endMarker, Piece.beginPage 2,
            Piece.endMarker, Piece.beginPage 3]⟩)] []).2
        = 0 :: (processResults [Meta.mk 1 3 [1, 2, 3]] [] []).2 :=
  ⟨by decide,
   (claim_C3 [Meta.mk 1 3 [1, 2, 3]] 0
      ⟨none, some [Piece.beginPage 1, Piece.endMarker, Piece.beginPage 2,
        Piece.endMarker, Piece.beginPage 3]⟩ [] []).2 (by decide)⟩

/-! ## C10 — validation constrains counts, not indices -/

/-- C10: validation counts markers but never inspects the relative indices
they carry; a unit text with a duplicated relative index passes validation
for its expected page count, yet merging the accepted unit adds strictly
fewer distinct pages to the page map than the unit's page count. -/
theorem claim_C10 :
    ∃ (meta : Meta) (res : Outcome) (t : List Piece),
      res.response = some t ∧
      unitSuccess meta res = true ∧
      (¬ (beginIndices t).Nodup ∨ ∃ r ∈ beginIndices t, r = 0 ∨ meta.numPages < r) ∧
      (mergeUnit meta res []).length < meta.numPages :=
  ⟨⟨5, 2, [5, 6]⟩,
   ⟨none, some [Piece.beginPage 1, Piece.endMarker, Piece.beginPage 1, Piece.endMarker]⟩,
   [Piece.beginPage 1, Piece.endMarker, Piece.beginPage 1, Piece.endMarker],
   rfl, by decide, Or.inl (by decide), by decide⟩

/-! ## More helper lemmas: the page map, assembly, and the resume scan -/

theorem mapSet_all {P : List Piece → Prop} :
    ∀ (m : PageMap) (k : Nat) (v : List Piece),
      (∀ e ∈ m, P e.2) → P v → ∀ e ∈ mapSet m k v, P e.2 := by
  intro m
  induction m with
  | nil =>
    intro k v _ hv e he
    simp only [mapSet, List.mem_singleton] at he
    simpa [he] using hv
  | cons hd tl ih =>
    intro k v hall hv e he
    simp only [mapSet] at he
    by_cases hk : hd.1 = k
    · simp only [hk, if_true] at he
      rcases List.mem_cons.mp he with h | h
      · simpa [h] using hv
      · exact hall e (by simp [h])
    · simp only [hk, if_false] at he
      rcases List.mem_cons.mp he with h | h
      · exact hall e (by simp [h])
      · exact ih k v (fun e' he' => hall e' (by simp [he'])) hv e h

theorem mapGet?_all {P : List Piece → Prop} :
    ∀ (m : PageMap), (∀ e ∈ m, P e.2) →
      ∀ k v, mapGet? m k = some v → P v := by
  intro m
  induction m with
  | nil => intro _ k v h; simp [mapGet?] at h
  | cons hd tl ih =>
    intro hall k v h
    simp only [mapGet?] at h
    by_cases hk : hd.1 = k
    · simp only [hk, if_true, Option.some.injEq] at h
      simpa [← h] using hall hd (by simp)
    · simp only [hk, if_false] at h
      exact ih (fun e he => hall e (by simp [he])) k v h

theorem extract_foldl_no_sentinel :
    ∀ (l : List (Nat × List Piece)) (m : PageMap),
      (∀ e ∈ m, e.2.any Piece.isErrSentinel = false) →
      ∀ e ∈ l.foldl
        (fun m seg =>
          if seg.2.any Piece.isErrSentinel then m else mapSet m seg.1 seg.2) m,
        e.2.any Piece.isErrSentinel = false := by
  intro l
  induction l with
  | nil => intro m hm e he; exact hm e he
  | cons seg rest ih =>
    intro m hm e he
    simp only [List.foldl_cons] at he
    by_cases hs : seg.2.any Piece.isErrSentinel
    · rw [if_pos hs] at he
      exact ih m hm e he
    · rw [if_neg hs] at he
      exact ih (mapSet m seg.1 seg.2)
        (mapSet_all (P := fun l => l.any Piece.isErrSentinel = false)
          m seg.1 seg.2 hm (Bool.eq_false_iff.mpr hs)) e he

/-- No page that `extractPagesFromMarkdown` returns maps to a segment
containing the failure sentinel. -/
theorem extractPages_no_sentinel (content : List Piece) (p : Nat) (seg : List Piece)
    (h : mapGet? (extractPagesFromMarkdown content) p = some seg) :
    seg.any Piece.isErrSentinel = false :=
  mapGet?_all (P := fun l => l.any Piece.isErrSentinel = false) _
    (extract_foldl_no_sentinel (splitAtBegins content) [] (by simp)) p seg h

theorem assemble_foldl (m : PageMap) :
    ∀ (ps : List Nat) (acc : List Piece) (b : Bool),
      ps.foldl
        (fun acc i =>
          if mapHas m i then (acc.1 ++ mapGetD m i [], acc.2)
          else (acc.1 ++ [Piece.beginPage i, Piece.errorSentinel i], true))
        (acc, b)
      = (acc ++ ((ps.map (renderPage m)).flatten),
         b || ps.any (fun i => !mapHas m i)) := by
  intro ps
  induction ps with
  | nil => intro acc b; simp
  | cons i rest ih =>
    intro acc b
    simp only [List.foldl_cons, List.map_cons, List.flatten_cons, List.any_cons]
    by_cases hi : mapHas m i
    · rw [if_pos hi]
      rw [ih]
      simp [renderPage, hi]
    · rw [if_neg hi]
      rw [ih]
      simp [renderPage, hi, Bool.eq_false_iff.mpr hi]

theorem assemble_fst (ps : List Nat) (m : PageMap) :
    (assemble ps m).1 = (ps.map (renderPage m)).flatten := by
  simp [assemble, assemble_foldl]

theorem assemble_snd (ps : List Nat) (m : PageMap) :
    (assemble ps m).2 = ps.any (fun i => !mapHas m i) := by
  simp [assemble, assemble_foldl]

theorem persist_spec (fs0 : FsState) (he : Bool) :
    (persist fs0 he).errorExists = he ∧ (persist fs0 he).normalExists = !he := by
  cases fs0 with
  | mk e n => cases he <;> cases e <;> cases n <;> simp [persist]

/-- Destructing a completed run: it is exactly a retry-loop exit state fed
through `finishRun`. -/
theorem pdfToText_ok_iff (inp : RunInput) (r : RunResult) (h : pdfToText inp = .ok r) :
    ∃ st, retryLoopFull inp = .ok st ∧ r = finishRun inp st := by
  unfold pdfToText at h
  rcases hrl : retryLoopFull inp with e | st <;> rw [hrl] at h
  · simp at h
  · simp only [Except.ok.injEq] at h
    exact ⟨st, rfl, h.symm⟩

/-! ## C6 — idempotent resume -/

/-- C6: when a prior partial-failure artifact exists, the run seeds its
page map with exactly the artifact's parsed pages, every seeded page is
sentinel-free (segments containing the OCR-failure sentinel are excluded),
and the pages sent through chunking are exactly the requested range minus
the already-resolved pages — a rerun resubmits only previously-failed
pages. -/
theorem claim_C6 (inp : RunInput) (c : List Piece)
    (hart : inp.errorArtifact = some c) (hbs : 0 < inp.batchSize) :
    resumeMap inp = extractPagesFromMarkdown c ∧
      (∀ p seg, mapGet? (resumeMap inp) p = some seg →
        seg.any Piece.isErrSentinel = false) ∧
      (unitChunks inp).flatten
        = (pageRange inp).filter (fun i => !mapHas (resumeMap inp) i) := by
  have h1 : resumeMap inp = extractPagesFromMarkdown c := by
    simp [resumeMap, hart]
  refine ⟨h1, ?_, ?_⟩
  · intro p seg hseg
    rw [h1] at hseg
    exact extractPages_no_sentinel c p seg hseg
  · rw [show (unitChunks inp) = chunkPages inp.batchSize (pageIndices inp) from rfl]
    rw [chunkPages_join inp.batchSize hbs (pageIndices inp)]
    rfl

/-- Witness for C6: resuming from an artifact with page 1 resolved and
page 2 failed, the rerun chunks exactly page 2. -/
theorem claim_C6_witness :
    w6inp.errorArtifact = some artSample ∧ 0 < w6inp.batchSize ∧
      resumeMap w6inp = extractPagesFromMarkdown artSample ∧
      (unitChunks w6inp).flatten
        = (pageRange w6inp).filter (fun i => !mapHas (resumeMap w6inp) i) :=
  ⟨rfl, by decide,
   (claim_C6 w6inp artSample rfl (by decide)).1,
   (claim_C6 w6inp artSample rfl (by decide)).2.2⟩

/-! ## C7 — mutual exclusivity of artifacts -/

/-- C7: after any completed run, the error artifact exists exactly when
some page of the requested range is unresolved in the final page map, the
success artifact exists exactly otherwise — so exactly one of the two
paths exists on disk, the other having been deleted if present. -/
theorem claim_C7 (inp : RunInput) (r : RunResult) (h : pdfToText inp = .ok r) :
    (r.fs.errorExists = r.hasError ∧ r.fs.normalExists = !r.hasError) ∧
      r.fs.errorExists ≠ r.fs.normalExists ∧
      (r.hasError = true ↔ ∃ p ∈ pageRange inp, mapHas r.finalMap p = false) := by
  obtain ⟨st, hrl, rfl⟩ := pdfToText_ok_iff inp r h
  have h1 : (finishRun inp st).fs.errorExists = (finishRun inp st).hasError :=
    (persist_spec (initialFs inp) (assemble (pageRange inp) st.pageMap).2).1
  have h2 : (finishRun inp st).fs.normalExists = !(finishRun inp st).hasError :=
    (persist_spec (initialFs inp) (assemble (pageRange inp) st.pageMap).2).2
  refine ⟨⟨h1, h2⟩, ?_, ?_⟩
  · rw [h1, h2]
    cases (finishRun inp st).hasError <;> simp
  · have h3 : (finishRun inp st).hasError
        = (pageRange inp).any (fun i => !mapHas st.pageMap i) :=
      assemble_snd (pageRange inp) st.pageMap
    rw [h3, List.any_eq_true]
    constructor
    · rintro ⟨p, hp, hneg⟩
      exact ⟨p, hp, by simpa using hneg⟩
    · rintro ⟨p, hp, hfalse⟩
      have hf : mapHas st.pageMap p = false := hfalse
      exact ⟨p, hp, by simp [hf]⟩

/-- Witness for C7: a fully successful rerun writes the success artifact
and removes the stale error state — exactly one artifact remains. -/
theorem claim_C7_witness :
    pdfToText w7inp = .ok c7res ∧
      (c7res.fs.errorExists = c7res.hasError ∧
        c7res.fs.normalExists = !c7res.hasError) ∧
      c7res.fs.errorExists ≠ c7res.fs.normalExists :=
  ⟨by rfl,
   (claim_C7 w7inp c7res (by rfl)).1,
   (claim_C7 w7inp c7res (by rfl)).2.1⟩

/-! ## C8 — retry exhaustion is not fatal; final merge -/

/-- C8: whenever the retry loop exits normally — including at the retry
cap with units still pending — the run completes: the merged artifact is,
page by page in ascending order over the requested range, the resolved
text when present and otherwise the page-begin marker followed by the
literal OCR-failure sentinel for that page; and when any page is
unresolved the partial-failure artifact is persisted. -/
theorem claim_C8 (inp : RunInput) (st : LoopState) (h : retryLoopFull inp = .ok st) :
    pdfToText inp = .ok (finishRun inp st) ∧
      (finishRun inp st).artifact = ((pageRange inp).map (renderPage st.pageMap)).flatten ∧
      (∀ p ∈ pageRange inp, mapHas st.pageMap p = false →
        renderPage st.pageMap p = [Piece.beginPage p, Piece.errorSentinel p]) ∧
      ((finishRun inp st).hasError = true →
        (finishRun inp st).fs.errorExists = true ∧
          (finishRun inp st).fs.normalExists = false) := by
  refine ⟨?_, ?_, ?_, ?_⟩
  · unfold pdfToText
    rw [h]
  · show (assemble (pageRange inp) st.pageMap).1 = _
    exact assemble_fst _ _
  · intro p _ hp
    simp [renderPage, hp]
  · intro he
    have h1 : (finishRun inp st).fs.errorExists = (finishRun inp st).hasError :=
      (persist_spec (initialFs inp) (assemble (pageRange inp) st.pageMap).2).1
    have h2 : (finishRun inp st).fs.normalExists = !(finishRun inp st).hasError :=
      (persist_spec (initialFs inp) (assemble (pageRange inp) st.pageMap).2).2
    rw [he] at h1 h2
    exact ⟨h1, by simpa using h2⟩

/-- Witness for C8: a run whose every round fails validation exhausts the
retry cap with its unit still pending, yet completes, emits the begin
marker and sentinel for the unresolved page, and persists the error
artifact. -/
theorem claim_C8_witness :
    retryLoopFull w2inp = .ok ⟨[], [0], 3, 3⟩ ∧
      (⟨[], [0], 3, 3⟩ : LoopState).pending ≠ [] ∧
      pdfToText w2inp = .ok (finishRun w2inp ⟨[], [0], 3, 3⟩) ∧
      (finishRun w2inp ⟨[], [0], 3, 3⟩).artifact
        = ((pageRange w2inp).map (renderPage ([] : PageMap))).flatten :=
  ⟨by rfl, by decide,
   (claim_C8 w2inp ⟨[], [0], 3, 3⟩ (by rfl)).1,
   (claim_C8 w2inp ⟨[], [0], 3, 3⟩ (by rfl)).2.1⟩

/-! ## Helper lemmas for the retry loop -/

theorem range_map_getD (l : List Nat) :
    (List.range l.length).map (fun i => l.getD i 0) = l := by
  refine List.ext_getElem (by simp) ?_
  intro i h1 h2
  simp only [List.getElem_map, List.getElem_range]
  rw [List.getD_eq_getElem?_getD, List.getElem?_eq_getElem h2]
  rfl

theorem range_cons_of_ne (l : List Nat) (h : l ≠ []) :
    ∃ p pr, List.range l.length = p :: pr := by
  cases hl : List.range l.length with
  | nil =>
    exfalso
    have h0 := congrArg List.length hl
    simp only [List.length_range, List.length_nil] at h0
    exact h (List.length_eq_zero.mp h0)
  | cons p pr => exact ⟨p, pr, rfl⟩

theorem waitForCompletion_jobFail :
    ∀ (polls : List JState) (dest : Option (List Outcome)) (s : JState),
      polls.find? isTerminal = some s → isJobFail s = true →
      waitForCompletion polls dest = .error (.jobFailed s) := by
  intro polls
  induction polls with
  | nil => intro dest s h _; simp [List.find?] at h
  | cons p rest ih =>
    intro dest s h hfail
    by_cases hp : isTerminal p
    · rw [List.find?_cons_of_pos _ hp, Option.some.injEq] at h
      subst h
      have hps : ¬ p = JState.succeeded := by
        intro hs
        rw [hs] at hfail
        exact absurd hfail (by decide)
      simp [waitForCompletion, hp, hps]
    · rw [List.find?_cons_of_neg _ hp] at h
      simp only [waitForCompletion, hp, Bool.false_eq_true, if_false]
      exact ih dest s h hfail

theorem waitForCompletion_succ :
    ∀ (polls : List JState) (outs : List Outcome),
      polls.find? isTerminal = some JState.succeeded →
      waitForCompletion polls (some outs) = .ok outs := by
  intro polls
  induction polls with
  | nil => intro outs h; simp [List.find?] at h
  | cons p rest ih =>
    intro outs h
    by_cases hp : isTerminal p
    · rw [List.find?_cons_of_pos _ hp, Option.some.injEq] at h
      subst h
      simp [waitForCompletion, hp]
    · rw [List.find?_cons_of_neg _ hp] at h
      simp only [waitForCompletion, hp, Bool.false_eq_true, if_false]
      exact ih outs h

theorem runBatchesGo_head_error (c : List Nat) (cs : List (List Nat)) (svc : Svc)
    (j j' : Nat) (e : RunErr) (h : runInlineBatch c svc j = (.error e, j')) :
    runBatchesGo (c :: cs) svc j = (.error e, j') := by
  simp [runBatchesGo, h]

theorem unitSuccess_of_error (meta : Meta) (res : Outcome)
    (h : res.error.isSome = true) : unitSuccess meta res = false := by
  cases he : res.error with
  | none => rw [he] at h; simp at h
  | some x => simp [unitSuccess, he]

theorem processResults_all_fail (metas : List Meta) :
    ∀ (l : List (Nat × Outcome)) (m : PageMap),
      (∀ pr ∈ l, pr.2.error.isSome = true) →
      processResults metas l m = (m, l.map Prod.fst) := by
  intro l
  induction l with
  | nil => intro m _; simp [processResults]
  | cons hd rest ih =>
    intro m hall
    obtain ⟨i, res⟩ := hd
    have hfail : unitSuccess (metas.getD i dMeta) res = false :=
      unitSuccess_of_error _ _ (hall (i, res) (by simp))
    simp only [processResults]
    rw [if_neg (by simp only [hfail]; decide)]
    rw [ih m (fun pr' hpr' => hall pr' (by simp [hpr']))]
    rfl

theorem runBatchesGo_uniform (svc : Svc)
    (hsvc : ∀ j c, (svc j c).polls.find? isTerminal = some JState.succeeded ∧
      ∃ outs, (svc j c).dest = some outs ∧ outs.length = c.length ∧
        ∀ o ∈ outs, o.error.isSome = true) :
    ∀ (cs : List (List Nat)) (j : Nat),
      (∀ c ∈ cs, jsonArrayLength c ≤ MAX_BATCH_SIZE) →
      ∃ outs, runBatchesGo cs svc j = (.ok outs, j + cs.length) ∧
        outs.length = cs.flatten.length ∧ ∀ o ∈ outs, o.error.isSome = true := by
  intro cs
  induction cs with
  | nil => intro j _; exact ⟨[], by simp [runBatchesGo], by simp, by simp⟩
  | cons c rest ih =>
    intro j hsz
    obtain ⟨hterm, outs_c, hdest, hlen, herr⟩ := hsvc j c
    have hsize : ¬ MAX_BATCH_SIZE < jsonArrayLength c :=
      Nat.not_lt.mpr (hsz c (by simp))
    have hrun : runInlineBatch c svc j = (.ok outs_c, j + 1) := by
      simp only [runInlineBatch]
      rw [if_neg hsize, hdest, waitForCompletion_succ _ _ hterm]
    obtain ⟨outs_r, hrr, hlenr, herrr⟩ := ih (j + 1) (fun c' hc' => hsz c' (by simp [hc']))
    refine ⟨outs_c ++ outs_r, ?_, ?_, ?_⟩
    · simp [runBatchesGo, hrun, hrr, List.length_cons, Nat.add_assoc,
        Nat.add_comm, Nat.add_left_comm]
    · simp [hlen, hlenr]
    · intro o ho
      rcases List.mem_append.mp ho with h | h
      exacts [herr o h, herrr o h]

/-- One retry round against a job-level-succeeding service that fails
every unit: the page map and the pending set come back unchanged, the
retry counter and the job counter advance. -/
theorem retryLoopGo_fail_round (sizes : List Nat) (metas : List Meta) (svc : Svc)
    (hsvc : ∀ j c, (svc j c).polls.find? isTerminal = some JState.succeeded ∧
      ∃ outs, (svc j c).dest = some outs ∧ outs.length = c.length ∧
        ∀ o ∈ outs, o.error.isSome = true)
    (hsz : ∀ c ∈ chunkReqs MAX_BATCH_SIZE sizes [] 0,
      jsonArrayLength c ≤ MAX_BATCH_SIZE)
    (fuel rc j : Nat) (m : PageMap)
    (hrc : rc < MAX_RETRIES) (hne : sizes ≠ []) :
    retryLoopGo sizes metas svc (fuel + 1) (List.range sizes.length) rc m j
      = retryLoopGo sizes metas svc fuel (List.range sizes.length) (rc + 1) m
          (j + (chunkReqs MAX_BATCH_SIZE sizes [] 0).length) := by
  obtain ⟨p, pr, hp⟩ := range_cons_of_ne sizes hne
  rw [hp]
  simp only [retryLoopGo]
  rw [if_neg (Nat.not_le.mpr hrc)]
  have hcur : (p :: pr).map (fun i => sizes.getD i 0) = sizes := by
    rw [← hp]
    exact range_map_getD sizes
  rw [hcur]
  obtain ⟨outs, hrun, hlen, herr⟩ :=
    runBatchesGo_uniform svc hsvc (chunkReqs MAX_BATCH_SIZE sizes [] 0) j hsz
  have hrb : runBatches sizes svc j
      = (.ok outs, j + (chunkReqs MAX_BATCH_SIZE sizes [] 0).length) := by
    rw [runBatches]
    exact hrun
  rw [hrb]
  have houts : (p :: pr).length ≤ outs.length := by
    rw [hlen, chunkReqs_join MAX_BATCH_SIZE sizes [] 0, List.nil_append, ← hp,
      List.length_range]
  have hproc : processResults metas ((p :: pr).zip outs) m = (m, p :: pr) := by
    rw [processResults_all_fail metas ((p :: pr).zip outs) m
      (fun pr' hpr' => herr pr'.2 (List.of_mem_zip hpr').2)]
    rw [List.map_fst_zip _ _ houts]
  show retryLoopGo sizes metas svc fuel
      (processResults metas ((p :: pr).zip outs) m).2 (rc + 1)
      (processResults metas ((p :: pr).zip outs) m).1
      (j + (chunkReqs MAX_BATCH_SIZE sizes [] 0).length)
    = _
  rw [hproc]

/-- A runtime error in a round's `runBatches` aborts the retry loop. -/
theorem retryLoopGo_error_round (sizes : List Nat) (metas : List Meta) (svc : Svc)
    (fuel rc j j' : Nat) (m : PageMap) (p : Nat) (pr : List Nat) (e : RunErr)
    (hrc : rc < MAX_RETRIES)
    (hrb : runBatches ((p :: pr).map (fun i => sizes.getD i 0)) svc j
      = (.error e, j')) :
    retryLoopGo sizes metas svc (fuel + 1) (p :: pr) rc m j = .error e := by
  simp only [retryLoopGo]
  rw [if_neg (Nat.not_le.mpr hrc), hrb]

/-! ## C1 — job-level failure handling -/

/-- Counterexample to C1 as stated: against a service whose first job ends
in `JOB_STATE_FAILED` (and whose later jobs would succeed with valid
output), the single pending unit is *not* re-entered into the pending set
and resubmitted — the job-failure error thrown by `waitForCompletion`
propagates uncaught through `runBatches` and the retry loop of
`pdfToText`, and the whole run aborts with that error.  Had the unit been
resubmitted as the claim asserts, the next round's job (`w1svc` at index
1) would have succeeded and the run would have returned a success
artifact. -/
theorem claim_C1_counterexample :
    pdfToText w1inp = .error (.jobFailed JState.failed) := by rfl

/-- C1 (amended): a batch job whose polled terminal state is not
`SUCCEEDED` (FAILED, CANCELLED, or EXPIRED) causes `waitForCompletion` to
throw a job-failure error carrying that state; the error is caught nowhere
in `pdfToText`, so the run aborts immediately — the job's units do not
re-enter the pending set and nothing is resubmitted. -/
theorem claim_C1 (inp : RunInput) (s : JState)
    (hne : unitChunks inp ≠ [])
    (hsz : jsonArrayLength (firstChunk inp) ≤ MAX_BATCH_SIZE)
    (hterm : (inp.svc 0 (firstChunk inp)).polls.find? isTerminal = some s)
    (hfail : isJobFail s = true) :
    pdfToText inp = .error (.jobFailed s) := by
  have hsne : unitSizes inp ≠ [] := by
    intro h0
    rw [unitSizes] at h0
    exact hne (List.map_eq_nil_iff.mp h0)
  have hchunks : ∃ cs, chunkReqs MAX_BATCH_SIZE (unitSizes inp) [] 0
      = firstChunk inp :: cs := by
    cases hc : chunkReqs MAX_BATCH_SIZE (unitSizes inp) [] 0 with
    | nil =>
      exfalso
      have hj := chunkReqs_join MAX_BATCH_SIZE (unitSizes inp) [] 0
      rw [hc] at hj
      simp only [List.flatten_nil, List.nil_append] at hj
      exact hsne hj.symm
    | cons c0 cs =>
      refine ⟨cs, ?_⟩
      rw [show firstChunk inp = c0 from by rw [firstChunk, hc]; rfl]
  obtain ⟨cs, hc⟩ := hchunks
  have hwait : waitForCompletion (inp.svc 0 (firstChunk inp)).polls
      (inp.svc 0 (firstChunk inp)).dest = .error (.jobFailed s) :=
    waitForCompletion_jobFail _ _ s hterm hfail
  have hinline : runInlineBatch (firstChunk inp) inp.svc 0
      = (.error (.jobFailed s), 1) := by
    simp only [runInlineBatch]
    rw [if_neg (Nat.not_lt.mpr hsz), hwait]
  have hrb : runBatches (unitSizes inp) inp.svc 0 = (.error (.jobFailed s), 1) := by
    rw [runBatches, hc]
    exact runBatchesGo_head_error _ _ _ _ _ _ hinline
  obtain ⟨p, pr, hp⟩ := range_cons_of_ne (unitSizes inp) hsne
  have hlen : (unitChunks inp).length = (unitSizes inp).length := by
    rw [unitSizes, List.length_map]
  have hloop : retryLoopFull inp = .error (.jobFailed s) := by
    rw [retryLoopFull, retryLoop, hlen, hp,
      show MAX_RETRIES = 2 + 1 from rfl]
    refine retryLoopGo_error_round _ _ _ 2 0 0 1 _ p pr _ (by decide) ?_
    rw [show (p :: pr).map (fun i => (unitSizes inp).getD i 0)
        = unitSizes inp from by rw [← hp]; exact range_map_getD _]
    exact hrb
  unfold pdfToText
  rw [hloop]

/-- Witness for C1 (amended): a one-page run whose only job is cancelled
aborts with the corresponding job-failure error. -/
theorem claim_C1_witness :
    unitChunks w1binp ≠ [] ∧
      jsonArrayLength (firstChunk w1binp) ≤ MAX_BATCH_SIZE ∧
      (w1binp.svc 0 (firstChunk w1binp)).polls.find? isTerminal
        = some JState.cancelled ∧
      isJobFail JState.cancelled = true ∧
      pdfToText w1binp = .error (.jobFailed JState.cancelled) :=
  ⟨by decide, by decide, by rfl, by decide,
   claim_C1 w1binp JState.cancelled (by decide) (by decide) (by rfl) (by decide)⟩

/-! ## C2 — retry bound -/

/-- C2: with `MAX_RETRIES = 3`, against a service that fails every
submitted unit in every round (each job reaches `SUCCEEDED` but returns an
error object for every request, so every unit fails the acceptance check),
the retry loop of `pdfToText` performs exactly 3 submission rounds and
then terminates: the run completes with exit retry count 3, the pending
set still the full original unit list, the page map exactly as the resume
scan left it, and every originally-pending page unresolved — rendered in
the final merge as a begin marker followed by the failure sentinel. -/
theorem claim_C2 (inp : RunInput)
    (hne : unitChunks inp ≠ [])
    (hsz : ∀ c ∈ chunkReqs MAX_BATCH_SIZE (unitSizes inp) [] 0,
      jsonArrayLength c ≤ MAX_BATCH_SIZE)
    (hsvc : ∀ j c, (inp.svc j c).polls.find? isTerminal = some JState.succeeded ∧
      ∃ outs, (inp.svc j c).dest = some outs ∧ outs.length = c.length ∧
        ∀ o ∈ outs, o.error.isSome = true) :
    ∃ r, pdfToText inp = .ok r ∧
      r.retryCount = MAX_RETRIES ∧
      r.pending = List.range (unitChunks inp).length ∧
      r.finalMap = resumeMap inp ∧
      (∀ p ∈ pageIndices inp, mapHas r.finalMap p = false) ∧
      r.artifact = ((pageRange inp).map (renderPage (resumeMap inp))).flatten ∧
      (∀ p ∈ pageIndices inp,
        renderPage (resumeMap inp) p = [Piece.beginPage p, Piece.errorSentinel p]) := by
  have hsne : unitSizes inp ≠ [] := by
    intro h0
    rw [unitSizes] at h0
    exact hne (List.map_eq_nil_iff.mp h0)
  have hlen : (unitChunks inp).length = (unitSizes inp).length := by
    rw [unitSizes, List.length_map]
  obtain ⟨p, pr, hp⟩ := range_cons_of_ne (unitSizes inp) hsne
  have hloop : retryLoopFull inp = .ok
      ⟨resumeMap inp, List.range (unitSizes inp).length, 0 + 1 + 1 + 1,
        0 + (chunkReqs MAX_BATCH_SIZE (unitSizes inp) [] 0).length
          + (chunkReqs MAX_BATCH_SIZE (unitSizes inp) [] 0).length
          + (chunkReqs MAX_BATCH_SIZE (unitSizes inp) [] 0).length⟩ := by
    rw [retryLoopFull, retryLoop, hlen]
    calc retryLoopGo (unitSizes inp) (unitMetas inp) inp.svc MAX_RETRIES
          (List.range (unitSizes inp).length) 0 (resumeMap inp) 0
        = retryLoopGo (unitSizes inp) (unitMetas inp) inp.svc (2 + 1)
          (List.range (unitSizes inp).length) 0 (resumeMap inp) 0 := rfl
      _ = retryLoopGo (unitSizes inp) (unitMetas inp) inp.svc 2
          (List.range (unitSizes inp).length) (0 + 1) (resumeMap inp)
          (0 + (chunkReqs MAX_BATCH_SIZE (unitSizes inp) [] 0).length) :=
        retryLoopGo_fail_round _ _ _ hsvc hsz 2 0 0 _ (by decide) hsne
      _ = retryLoopGo (unitSizes inp) (unitMetas inp) inp.svc (1 + 1)
          (List.range (unitSizes inp).length) (0 + 1) (resumeMap inp)
          (0 + (chunkReqs MAX_BATCH_SIZE (unitSizes inp) [] 0).length) := rfl
      _ = retryLoopGo (unitSizes inp) (unitMetas inp) inp.svc 1
          (List.range (unitSizes inp).length) (0 + 1 + 1) (resumeMap inp)
          (0 + (chunkReqs MAX_BATCH_SIZE (unitSizes inp) [] 0).length
            + (chunkReqs MAX_BATCH_SIZE (unitSizes inp) [] 0).length) :=
        retryLoopGo_fail_round _ _ _ hsvc hsz 1 (0 + 1) _ _ (by decide) hsne
      _ = retryLoopGo (unitSizes inp) (unitMetas inp) inp.svc (0 + 1)
          (List.range (unitSizes inp).length) (0 + 1 + 1) (resumeMap inp)
          (0 + (chunkReqs MAX_BATCH_SIZE (unitSizes inp) [] 0).length
            + (chunkReqs MAX_BATCH_SIZE (unitSizes inp) [] 0).length) := rfl
      _ = retryLoopGo (unitSizes inp) (unitMetas inp) inp.svc 0
          (List.range (unitSizes inp).length) (0 + 1 + 1 + 1) (resumeMap inp)
          (0 + (chunkReqs MAX_BATCH_SIZE (unitSizes inp) [] 0).length
            + (chunkReqs MAX_BATCH_SIZE (unitSizes inp) [] 0).length
            + (chunkReqs MAX_BATCH_SIZE (unitSizes inp) [] 0).length) :=
        retryLoopGo_fail_round _ _ _ hsvc hsz 0 (0 + 1 + 1) _ _ (by decide) hsne
      _ = .ok ⟨resumeMap inp, List.range (unitSizes inp).length, 0 + 1 + 1 + 1,
          0 + (chunkReqs MAX_BATCH_SIZE (unitSizes inp) [] 0).length
            + (chunkReqs MAX_BATCH_SIZE (unitSizes inp) [] 0).length
            + (chunkReqs MAX_BATCH_SIZE (unitSizes inp) [] 0).length⟩ := by
        rw [hp]
        simp only [retryLoopGo]
  refine ⟨finishRun inp
    ⟨resumeMap inp, List.range (unitSizes inp).length, 0 + 1 + 1 + 1,
      0 + (chunkReqs MAX_BATCH_SIZE (unitSizes inp) [] 0).length
        + (chunkReqs MAX_BATCH_SIZE (unitSizes inp) [] 0).length
        + (chunkReqs MAX_BATCH_SIZE (unitSizes inp) [] 0).length⟩,
    ?_, rfl, ?_, rfl, ?_, ?_, ?_⟩
  · unfold pdfToText
    rw [hloop]
  · rw [hlen]
    rfl
  · intro q hq
    show mapHas (resumeMap inp) q = false
    simpa using (List.mem_filter.mp hq).2
  · exact assemble_fst (pageRange inp) (resumeMap inp)
  · intro q hq
    have hfalse : mapHas (resumeMap inp) q = false := by
      simpa using (List.mem_filter.mp hq).2
    simp [renderPage, hfalse]

/-- Witness for C2: the one-page run against the always-failing service
performs its three rounds and renders the page as an inline error. -/
theorem claim_C2_witness :
    pdfToText w2inp = .ok c2res ∧ c2res.retryCount = MAX_RETRIES ∧
      c2res.pending = List.range (unitChunks w2inp).length ∧
      c2res.artifact = [Piece.beginPage 1, Piece.errorSentinel 1] := by
  have heval : pdfToText w2inp = .ok c2res := by rfl
  have hsvc : ∀ j c, (w2inp.svc j c).polls.find? isTerminal
        = some JState.succeeded ∧
      ∃ outs, (w2inp.svc j c).dest = some outs ∧ outs.length = c.length ∧
        ∀ o ∈ outs, o.error.isSome = true := by
    intro j c
    refine ⟨rfl, List.replicate c.length ⟨some 7, none⟩, rfl,
      List.length_replicate _ _, ?_⟩
    intro o ho
    rw [List.eq_of_mem_replicate ho]
    rfl
  obtain ⟨r, hr, hrc, hpend, _, _, _, _⟩ :=
    claim_C2 w2inp (by decide) (by decide) hsvc
  have hre : r = c2res := Except.ok.inj (hr.symm.trans heval)
  exact ⟨heval, hre ▸ hrc, hre ▸ hpend, by decide⟩

end GeminiOcr
